import Mathlib

/-!
Verification of the market-series analytics of the Samm1 repository
(`src/app.py`, `src/make_coins.py`).

Prices, volumes and market caps are modelled as rationals (`ℚ`); a pandas
Series / numpy array is a `List ℚ` indexed positionally; the missing first
element of `Series.diff()` (a NaN in the source) is an explicit `Option`.
-/

namespace Samm1

/-! ## RSI engine (`calculate_rsi`, src/app.py lines 84-94) -/

/-- `prices.diff()`: elementwise difference with the previous element; the
first element has no predecessor (NaN in pandas), modelled as `none`. -/
def diff (prices : List ℚ) : List (Option ℚ) :=
  match prices with
  | [] => []
  | _ :: tail => none :: List.zipWith (fun b a => some (b - a)) tail prices

/-- `np.where(delta > 0, delta, 0)`: a NaN delta compares false, so the
first slot becomes `0`. -/
def gainOf : Option ℚ → ℚ
  | none => 0
  | some d => if 0 < d then d else 0

/-- `np.where(delta < 0, -delta, 0)`: a NaN delta compares false, so the
first slot becomes `0`. -/
def lossOf : Option ℚ → ℚ
  | none => 0
  | some d => if d < 0 then -d else 0

/-- `pd.Series(xs).rolling(window=period, min_periods=1).mean()`: at index
`i` the mean of the trailing window of the last `min (i+1) period` elements.
With `min_periods=1` every index gets a value. -/
def rollingMean (period : ℕ) (xs : List ℚ) : List ℚ :=
  (List.range xs.length).map fun i =>
    let window := (xs.take (i + 1)).drop (i + 1 - period)
    window.sum / (window.length : ℚ)

/-- The gains series of `calculate_rsi`. -/
def gains (prices : List ℚ) : List ℚ := (diff prices).map gainOf

/-- The losses series of `calculate_rsi`. -/
def losses (prices : List ℚ) : List ℚ := (diff prices).map lossOf

/-- `avg_gain` of `calculate_rsi` (line 89). -/
def avg_gain (prices : List ℚ) (period : ℕ) : List ℚ :=
  rollingMean period (gains prices)

/-- `avg_loss` of `calculate_rsi` (line 90). -/
def avg_loss (prices : List ℚ) (period : ℕ) : List ℚ :=
  rollingMean period (losses prices)

/-- `rs = np.where(avg_loss != 0, avg_gain / avg_loss, np.inf)` (line 92):
`none` stands for the `np.inf` branch. -/
def rsOf (g l : ℚ) : Option ℚ :=
  if l ≠ 0 then some (g / l) else none

/-- `rsi = 100 - (100 / (1 + rs))` (line 93). When `rs` is `np.inf` the
float expression evaluates to `100 - 0 = 100`. -/
def rsiOfRs : Option ℚ → ℚ
  | some r => 100 - 100 / (1 + r)
  | none => 100

/-- `calculate_rsi(prices, period)` (src/app.py lines 84-94). -/
def calculate_rsi (prices : List ℚ) (period : ℕ) : List ℚ :=
  List.zipWith (fun g l => rsiOfRs (rsOf g l))
    (avg_gain prices period) (avg_loss prices period)

/-! ## Spec-side restatement of the rolling-mean RSI variant

The following definitions follow the spec's wording of the rolling-mean
variant, to be compared with `calculate_rsi` above: per-step price delta
(absent for the first sample, contributing neither gain nor loss);
`gain = max(delta, 0)`; `loss = max(-delta, 0)`; average gain/loss as a
trailing simple moving average of window `P`, back-filled over the shorter
prefix windows (the `min_periods` policy); `RS = avg_gain / avg_loss`
(`+∞` when the average loss is zero); `RSI = 100 - 100/(1+RS)` at every
index, with `RSI = 100` on the `+∞` branch. -/

/-- Spec wording: per-step deltas, with `0` standing for the absent first
delta (it contributes neither gain nor loss). -/
def specDeltas (prices : List ℚ) : List ℚ :=
  match prices with
  | [] => []
  | _ :: tail => 0 :: List.zipWith (fun b a => b - a) tail prices

/-- Spec wording: trailing simple moving average of window `P`, averaging
over the `min (i+1) P` available values at index `i`. -/
def specSMA (period : ℕ) (xs : List ℚ) : List ℚ :=
  (List.range xs.length).map fun i =>
    let window := (xs.take (i + 1)).drop (i + 1 - period)
    window.sum / (min (i + 1) period : ℚ)

/-- Spec wording of the rolling-mean RSI variant. -/
def rsiSpec (prices : List ℚ) (period : ℕ) : List ℚ :=
  let g := specSMA period ((specDeltas prices).map fun d => max d 0)
  let l := specSMA period ((specDeltas prices).map fun d => max (-d) 0)
  List.zipWith (fun g l => if l = 0 then 100 else 100 - 100 / (1 + g / l)) g l

/-! ## Signal classifier (src/app.py line 226; lines 142-147)

`df_table["RSI"].apply(lambda x: "Mua" if x < 30 else ("Bán" if x > 70
else "Giữ"))` — Mua = Buy, Bán = Sell, Giữ = Hold. -/

/-- The per-point trading signal of src/app.py line 226. -/
def signalOf (x : ℚ) : String :=
  if x < 30 then "Mua" else if x > 70 then "Bán" else "Giữ"

/-! ## Historical-series downsampling (`get_historical_data`, src/app.py
lines 61-73)

A merged DataFrame row carries `time` (epoch milliseconds), `price`,
`volume`, `market_cap` and the derived `volume_percent_mc` column. -/

/-- One row of the merged historical DataFrame. -/
structure Row where
  time : ℕ
  price : ℚ
  volume : ℚ
  market_cap : ℚ
  volume_percent_mc : ℚ
deriving DecidableEq, Repr

/-- The calendar day of an epoch-millisecond timestamp. -/
def dayKey (t : ℕ) : ℕ := t / 86400000

/-- Helper for `chunkByDay`: `cur` is the current day's rows in reverse. -/
def chunkByDayAux (cur : List Row) : List Row → List (List Row)
  | [] => [cur.reverse]
  | r :: rs =>
    match cur with
    | [] => chunkByDayAux [r] rs
    | c :: _ =>
      if dayKey r.time = dayKey c.time then chunkByDayAux (r :: cur) rs
      else cur.reverse :: chunkByDayAux [r] rs

/-- Group consecutive rows that fall on the same calendar day, as
`df.resample("D", on="time")` bins the (ascending, gap-free) series. -/
def chunkByDay : List Row → List (List Row)
  | [] => []
  | r :: rs => chunkByDayAux [r] rs

/-- The `.agg({price: mean, volume: sum, market_cap: mean,
volume_percent_mc: mean})` step applied to one day's rows (src/app.py
lines 64-69); the resampled row is labelled with the day's start. -/
def dayAggregate (g : List Row) : Row :=
  { time := dayKey ((g.headD ⟨0, 0, 0, 0, 0⟩).time) * 86400000
    price := (g.map Row.price).sum / (g.length : ℚ)
    volume := (g.map Row.volume).sum
    market_cap := (g.map Row.market_cap).sum / (g.length : ℚ)
    volume_percent_mc := (g.map Row.volume_percent_mc).sum / (g.length : ℚ) }

/-- `df.iloc[::n]`: the rows whose index is a multiple of `n`. -/
def everyNth (n : ℕ) (xs : List Row) : List Row :=
  (xs.enum.filter fun p => p.1 % n = 0).map Prod.snd

/-- The downsampling step of `get_historical_data` (src/app.py lines
61-73): over 1000 rows, either resample by calendar day (`days > 7`) or
keep every `n`-th row with `n = len(df) // 1000 + 1`. -/
def get_historical_data_downsample (days : ℕ) (df : List Row) : List Row :=
  if 1000 < df.length then
    if 7 < days then (chunkByDay df).map dayAggregate
    else everyNth (df.length / 1000 + 1) df
  else df

/-! ## Coin snapshot (`get_coin_data`, src/app.py lines 13-33) and the
inflow-proxy display (lines 126-127) -/

/-- The provider payload of `/coins/{id}`, after JSON decoding: an
optional `error` field and the `market_data` numbers, each possibly
absent. -/
structure CoinPayload where
  error : Option String
  name : Option String
  symbol : Option String
  price : Option ℚ
  market_cap : Option ℚ
  volume : Option ℚ
  market_cap_change_percentage_30d : Option ℚ

/-- The snapshot dict `get_coin_data` returns on success. -/
structure CoinData where
  name : String
  symbol : String
  price : Option ℚ
  market_cap : Option ℚ
  volume : Option ℚ
  market_cap_change_percentage_30d : Option ℚ

/-- `get_coin_data` (src/app.py lines 13-33). The argument is the
network outcome: `none` for a network error, timeout, non-2xx status or
malformed JSON (the `except` branch shows `st.error` and returns `None`);
a payload whose `error` field is set also raises into that branch. -/
def get_coin_data (response : Option CoinPayload) : Option CoinData :=
  match response with
  | none => none
  | some p =>
    if p.error.isSome then none
    else some
      { name := p.name.getD "N/A"
        symbol := (p.symbol.getD "N/A").toUpper
        price := p.price
        market_cap := p.market_cap
        volume := p.volume
        market_cap_change_percentage_30d :=
          p.market_cap_change_percentage_30d }

/-- The "Dòng tiền (Inflow proxy)" figure of src/app.py lines 126-127:
shown only when `coin_data["volume"]` is truthy (so neither `None` nor
`0`), and then it is the raw 24h volume itself. -/
def inflowProxyDisplayed (c : CoinData) : Option ℚ :=
  match c.volume with
  | some v => if v ≠ 0 then some v else none
  | none => none

/-- Modelled from the spec: the pointwise price percentage delta (the
first sample has no predecessor and contributes `0`). No code under
`src/` computes this series; the spec's §4.4 `inflow_proxy` formula
refers to it. -/
def pctChange (prices : List ℚ) : List ℚ :=
  match prices with
  | [] => []
  | _ :: tail => 0 :: List.zipWith (fun b a => (b - a) / a * 100) tail prices

/-- Modelled from the spec: `inflow_proxy` = sum over all samples of
`volume[i] * percent_change_of_price[i]` (spec §4.4); no code under
`src/` computes this sum. -/
def inflowProxySpec (prices volumes : List ℚ) : ℚ :=
  (List.zipWith (fun v pc => v * pc) volumes (pctChange prices)).sum

/-! ## Coin-catalog batch job (`fetch_top_coins`, src/make_coins.py) -/

/-- One record of the provider's `/coins/markets` listing (it carries
many more market fields; these suffice for the claims). -/
structure MarketCoin where
  id : String
  symbol : String
  name : String
  current_price : ℚ
  market_cap : ℚ
deriving DecidableEq, Repr

/-- One persisted catalog record: `{"id": …, "symbol": …, "name": …}`. -/
structure CatalogCoin where
  id : String
  symbol : String
  name : String
deriving DecidableEq, Repr

/-- The projection of src/make_coins.py lines 26-29. -/
def toCatalog (c : MarketCoin) : CatalogCoin := ⟨c.id, c.symbol, c.name⟩

/-- The observable outcome of one `fetch_top_coins` run: the pages it
requested, the pages whose request came back non-200 (logged with ❌ and
skipped), the list written to the file, and whether the closing 🎉
success message was printed. -/
structure FetchTopCoinsRun where
  requestedPages : List ℕ
  failedPages : List ℕ
  saved : List CatalogCoin
  successMessage : Bool
deriving DecidableEq, Repr

/-- The page loop body of src/make_coins.py lines 13-33. -/
def fetchPageStep (responses : ℕ → Option (List MarketCoin))
    (acc : List CatalogCoin × List ℕ) (page : ℕ) :
    List CatalogCoin × List ℕ :=
  match responses page with
  | some coins_data => (acc.1 ++ coins_data.map toCatalog, acc.2)
  | none => (acc.1, acc.2 ++ [page])

/-- `fetch_top_coins(total)` (src/make_coins.py lines 4-41). `responses`
is the provider: `responses page = none` models a non-200 status for that
page. `per_page` is 250; the loop runs over pages `1..pages`; the saved
list is truncated to `total`; the success message always prints. -/
def fetch_top_coins (responses : ℕ → Option (List MarketCoin))
    (total : ℕ) : FetchTopCoinsRun :=
  let per_page := 250
  let pages := total / per_page + (if total % per_page ≠ 0 then 1 else 0)
  let pageNums := List.range' 1 pages
  let r := pageNums.foldl (fetchPageStep responses) ([], [])
  { requestedPages := pageNums
    failedPages := r.2
    saved := r.1.take total
    successMessage := true }

/-- The try/except shape of `get_historical_data` (src/app.py lines
42-78): a failed fetch yields the empty DataFrame, a successful one is
downsampled. -/
def get_historical_data_model (days : ℕ) (response : Option (List Row)) :
    List Row :=
  match response with
  | none => []
  | some df => get_historical_data_downsample days df

/-! ## Concrete inputs used in witnesses and counterexamples -/

/-- A merged historical DataFrame of 2000 rows; long enough to trigger
the downsampling branch, with the first four timestamps distinct. -/
def rows2000 : List Row :=
  ⟨0, 1, 1, 1, 1⟩ :: ⟨1, 1, 1, 1, 1⟩ :: ⟨2, 1, 1, 1, 1⟩ :: ⟨3, 1, 1, 1, 1⟩ ::
    List.replicate 1996 ⟨4, 1, 1, 1, 1⟩

/-- A concrete snapshot: current 24h volume 5. -/
def coin0 : CoinData :=
  { name := "Bitcoin", symbol := "BTC", price := some 2,
    market_cap := some 10, volume := some 5,
    market_cap_change_percentage_30d := none }

/-- A concrete provider record. -/
def mc0 : MarketCoin := ⟨"btc", "btc", "Bitcoin", 1, 1⟩

/-- A provider where the page-1 request returns non-200 and page 2
succeeds. -/
def respFail1 : ℕ → Option (List MarketCoin) :=
  fun p => if p = 2 then some [mc0] else none

/-- A provider where every page request succeeds with one record. -/
def respAll : ℕ → Option (List MarketCoin) := fun _ => some [mc0]

/-! ## Length lemmas for the RSI pipeline -/

lemma length_diff (prices : List ℚ) : (diff prices).length = prices.length := by
  cases prices with
  | nil => rfl
  | cons p t => simp [diff]

lemma length_gains (prices : List ℚ) :
    (gains prices).length = prices.length := by
  simp [gains, length_diff]

lemma length_losses (prices : List ℚ) :
    (losses prices).length = prices.length := by
  simp [losses, length_diff]

lemma length_rollingMean (period : ℕ) (xs : List ℚ) :
    (rollingMean period xs).length = xs.length := by
  simp [rollingMean]

lemma length_avg_gain (prices : List ℚ) (period : ℕ) :
    (avg_gain prices period).length = prices.length := by
  simp [avg_gain, length_rollingMean, length_gains]

lemma length_avg_loss (prices : List ℚ) (period : ℕ) :
    (avg_loss prices period).length = prices.length := by
  simp [avg_loss, length_rollingMean, length_losses]

lemma length_calculate_rsi (prices : List ℚ) (period : ℕ) :
    (calculate_rsi prices period).length = prices.length := by
  simp [calculate_rsi, List.length_zipWith, length_avg_gain, length_avg_loss]

/-! ## The zero-average-loss branch -/

/-- Whenever the trailing average loss at an in-range index is zero, the
RSI there is 100 (the `np.inf` branch of line 92). -/
lemma rsi_getD_100 (prices : List ℚ) (period : ℕ) (i : ℕ)
    (hi : i < prices.length)
    (hl : (avg_loss prices period).getD i 0 = 0) :
    (calculate_rsi prices period).getD i 0 = 100 := by
  have hg : i < (avg_gain prices period).length := by
    rw [length_avg_gain]; exact hi
  have hll : i < (avg_loss prices period).length := by
    rw [length_avg_loss]; exact hi
  have hz : i < (calculate_rsi prices period).length := by
    rw [length_calculate_rsi]; exact hi
  rw [List.getD_eq_getElem _ _ hll] at hl
  rw [List.getD_eq_getElem _ _ hz]
  unfold calculate_rsi at hz ⊢
  rw [List.getElem_zipWith]
  rw [hl]
  simp [rsOf, rsiOfRs]

/-- The first slot of the loss series is `0` (the NaN delta contributes
no loss). -/
lemma losses_head (p : ℚ) (t : List ℚ) :
    losses (p :: t) = 0 :: (List.zipWith (fun b a => some (b - a)) t (p :: t)).map lossOf := by
  simp [losses, diff, lossOf]

/-- The trailing average loss at index 0 is always `0`. -/
lemma avg_loss_getD_zero (prices : List ℚ) (period : ℕ) (h : prices ≠ []) :
    (avg_loss prices period).getD 0 0 = 0 := by
  obtain ⟨p, t, rfl⟩ := List.exists_cons_of_ne_nil h
  rw [avg_loss, losses_head]
  cases period with
  | zero => simp [rollingMean]
  | succ k => simp [rollingMean]

/-- The loss series of a constant price sequence is all zero. -/
lemma losses_replicate (n : ℕ) (c : ℚ) :
    losses (List.replicate n c) = List.replicate n 0 := by
  cases n with
  | zero => rfl
  | succ m =>
    rw [List.replicate_succ, losses_head, List.replicate_succ]
    rw [show (c :: List.replicate m c) = List.replicate (m + 1) c from
      (List.replicate_succ c m).symm]
    rw [List.zipWith_replicate]
    simp [lossOf]

/-- The rolling mean of an all-zero series is all zero. -/
lemma rollingMean_replicate_zero (period n : ℕ) :
    rollingMean period (List.replicate n (0 : ℚ)) = List.replicate n 0 := by
  unfold rollingMean
  rw [List.length_replicate]
  rw [List.eq_replicate_iff]
  constructor
  · simp
  · intro b hb
    simp only [List.mem_map, List.mem_range] at hb
    obtain ⟨i, _, rfl⟩ := hb
    simp [List.take_replicate, List.drop_replicate, List.sum_replicate]

/-! ## The spec's rolling-mean wording agrees with the code -/

lemma max_zero_ite (d : ℚ) : max d 0 = if 0 < d then d else 0 := by
  rcases le_or_lt d 0 with h | h
  · simp [max_eq_right h, not_lt.mpr h]
  · simp [max_eq_left h.le, h]

lemma max_neg_zero_ite (d : ℚ) : max (-d) 0 = if d < 0 then -d else 0 := by
  rcases le_or_lt d 0 with h | h
  · rcases eq_or_lt_of_le h with h0 | h0
    · simp [h0]
    · simp [max_eq_left (by linarith : (0:ℚ) ≤ -d), h0]
  · simp [max_eq_right (by linarith : -d ≤ (0:ℚ)), not_lt.mpr h.le]

lemma specDeltas_max_eq_gains (prices : List ℚ) :
    (specDeltas prices).map (fun d => max d 0) = gains prices := by
  cases prices with
  | nil => rfl
  | cons p t =>
    simp only [specDeltas, gains, diff, List.map_cons, List.map_zipWith]
    have h1 : ((0 : ℚ) ⊔ 0) = gainOf none := by simp [gainOf]
    have hfun : (fun (x y : ℚ) => (x - y) ⊔ 0) =
        fun (x y : ℚ) => gainOf (some (x - y)) := by
      funext x y
      simp only [gainOf]
      rw [max_zero_ite]
    rw [h1, hfun]

lemma specDeltas_max_neg_eq_losses (prices : List ℚ) :
    (specDeltas prices).map (fun d => max (-d) 0) = losses prices := by
  cases prices with
  | nil => rfl
  | cons p t =>
    simp only [specDeltas, losses, diff, List.map_cons, List.map_zipWith]
    have h1 : (-(0 : ℚ) ⊔ 0) = lossOf none := by simp [lossOf]
    have hfun : (fun (x y : ℚ) => -(x - y) ⊔ 0) =
        fun (x y : ℚ) => lossOf (some (x - y)) := by
      funext x y
      simp only [lossOf]
      rw [max_neg_zero_ite]
    rw [h1, hfun]

lemma specSMA_eq_rollingMean (period : ℕ) (xs : List ℚ) :
    specSMA period xs = rollingMean period xs := by
  unfold specSMA rollingMean
  apply List.map_congr_left
  intro i hi
  simp only [List.mem_range] at hi
  have hlen : ((xs.take (i + 1)).drop (i + 1 - period)).length =
      min (i + 1) period := by
    simp only [List.length_drop, List.length_take]
    omega
  dsimp only
  rw [hlen]
  push_cast
  rfl

/-! ## The page loop of `fetch_top_coins` -/

lemma foldl_fetchPageStep (responses : ℕ → Option (List MarketCoin))
    (ps : List ℕ) (acc : List CatalogCoin × List ℕ) :
    ps.foldl (fetchPageStep responses) acc =
      (acc.1 ++ (ps.map fun p => ((responses p).getD []).map toCatalog).flatten,
       acc.2 ++ ps.filter fun p => (responses p).isNone) := by
  induction ps generalizing acc with
  | nil => simp
  | cons p ps ih =>
    rw [List.foldl_cons, ih]
    cases hp : responses p <;>
      simp [fetchPageStep, hp, List.filter_cons]

lemma fetch_top_coins_saved_eq (responses : ℕ → Option (List MarketCoin))
    (total : ℕ) :
    (fetch_top_coins responses total).saved =
      (((fetch_top_coins responses total).requestedPages.map
        fun p => ((responses p).getD []).map toCatalog).flatten).take total := by
  dsimp only [fetch_top_coins]
  rw [foldl_fetchPageStep]
  simp

lemma fetch_top_coins_failed_eq (responses : ℕ → Option (List MarketCoin))
    (total : ℕ) :
    (fetch_top_coins responses total).failedPages =
      (fetch_top_coins responses total).requestedPages.filter
        fun p => (responses p).isNone := by
  dsimp only [fetch_top_coins]
  rw [foldl_fetchPageStep]
  simp

lemma pages_eq_ceil (total : ℕ) :
    total / 250 + (if total % 250 ≠ 0 then 1 else 0) = (total + 249) / 250 := by
  by_cases h : total % 250 = 0 <;> simp [h] <;> omega

/-! ## Claim theorems -/

/-- C1: `calculate_rsi` implements the rolling-mean RSI variant as the
spec words it — per-step price delta, `gain = max(delta,0)`,
`loss = max(-delta,0)`, average gain/loss as a trailing simple moving
average of window `P` back-filled over shorter windows (`min_periods`
policy), `RS = avg_gain/avg_loss`, and `RSI = 100 - 100/(1+RS)` at every
index. -/
theorem calculate_rsi_eq_rolling_mean_spec (prices : List ℚ) (period : ℕ) :
    rsiSpec prices period = calculate_rsi prices period := by
  simp only [rsiSpec, calculate_rsi, avg_gain, avg_loss]
  rw [specDeltas_max_eq_gains, specDeltas_max_neg_eq_losses,
    specSMA_eq_rollingMean, specSMA_eq_rollingMean]
  have hfun : (fun (g l : ℚ) =>
      if l = 0 then (100 : ℚ) else 100 - 100 / (1 + g / l)) =
      fun g l => rsiOfRs (rsOf g l) := by
    funext g l
    by_cases hl : l = 0 <;> simp [rsOf, rsiOfRs, hl]
  rw [hfun]

/-- C3: at every in-range index where the trailing average loss is zero,
`calculate_rsi` returns exactly 100 and the RS at that index is the
`np.inf` branch (no division is attempted). -/
theorem calculate_rsi_avg_loss_zero (prices : List ℚ) (period i : ℕ)
    (hi : i < prices.length)
    (hl : (avg_loss prices period).getD i 0 = 0) :
    (calculate_rsi prices period).getD i 0 = 100 ∧
    rsOf ((avg_gain prices period).getD i 0)
      ((avg_loss prices period).getD i 0) = none :=
  ⟨rsi_getD_100 prices period i hi hl, by rw [hl]; simp [rsOf]⟩

/-- Witness for C3 at `prices = [1, 2, 3]`, `i = 1`. -/
theorem calculate_rsi_avg_loss_zero_witness :
    (calculate_rsi [1, 2, 3] 14).getD 1 0 = 100 ∧
    rsOf ((avg_gain [1, 2, 3] 14).getD 1 0)
      ((avg_loss [1, 2, 3] 14).getD 1 0) = none :=
  calculate_rsi_avg_loss_zero [1, 2, 3] 14 1 (by decide)
    (by norm_num [avg_loss, losses, diff, lossOf, rollingMean,
      List.range_succ])

/-- C6: for every non-empty price sequence (of any length, also shorter
than the period) `calculate_rsi` is total and returns a list of exactly
the input's length, aligned by index. -/
theorem calculate_rsi_length_total (prices : List ℚ) (period : ℕ)
    (_h : prices ≠ []) :
    (calculate_rsi prices period).length = prices.length :=
  length_calculate_rsi prices period

/-- Witness for C6 at the one-point sequence `[5]` (shorter than the
period 14). -/
theorem calculate_rsi_length_total_witness :
    (calculate_rsi [(5 : ℚ)] 14).length = [(5 : ℚ)].length :=
  calculate_rsi_length_total [(5 : ℚ)] 14 (by decide)

/-- C7: the downsampling step leaves a series of at most 1000 points
unchanged, and it is deterministic — equal inputs give equal outputs. -/
theorem downsample_idempotent_deterministic (days : ℕ) (df : List Row)
    (h : df.length ≤ 1000) :
    get_historical_data_downsample days df = df ∧
    ∀ days2 df2, days2 = days → df2 = df →
      get_historical_data_downsample days2 df2 =
        get_historical_data_downsample days df := by
  constructor
  · unfold get_historical_data_downsample
    rw [if_neg (by omega)]
  · intro days2 df2 h1 h2
    rw [h1, h2]

/-- Witness for C7 at a one-row series. -/
theorem downsample_idempotent_deterministic_witness :
    get_historical_data_downsample 3 [⟨0, 1, 1, 1, 1⟩] = [⟨0, 1, 1, 1, 1⟩] ∧
    get_historical_data_downsample 3 [⟨0, 1, 1, 1, 1⟩] =
      get_historical_data_downsample 3 [⟨0, 1, 1, 1, 1⟩] :=
  ⟨(downsample_idempotent_deterministic 3 [⟨0, 1, 1, 1, 1⟩] (by decide)).1,
   (downsample_idempotent_deterministic 3 [⟨0, 1, 1, 1, 1⟩] (by decide)).2
     3 [⟨0, 1, 1, 1, 1⟩] rfl rfl⟩

/-- C10: for every non-empty price sequence the RSI at index 0 is exactly
100 (the undefined first delta gives zero average gain and loss, RS is
the `+∞` branch), and for an all-constant sequence the RSI is 100 at
every index. -/
theorem calculate_rsi_first_and_constant (prices : List ℚ)
    (period n i : ℕ) (c : ℚ) (h : prices ≠ []) (hi : i < n) :
    (calculate_rsi prices period).getD 0 0 = 100 ∧
    (calculate_rsi (List.replicate n c) period).getD i 0 = 100 := by
  constructor
  · exact rsi_getD_100 prices period 0 (List.length_pos.mpr h)
      (avg_loss_getD_zero prices period h)
  · apply rsi_getD_100
    · simpa using hi
    · have hrepl : avg_loss (List.replicate n c) period =
          List.replicate n 0 := by
        rw [avg_loss, losses_replicate, rollingMean_replicate_zero]
      rw [hrepl]
      rcases Nat.lt_or_ge i n with hin | hin
      · rw [List.getD_eq_getElem _ _ (by simpa using hin)]
        simp
      · rw [List.getD_eq_default _ _ (by simpa using hin)]

/-- Witness for C10 at `[3, 7]` and the constant sequence of two 5s. -/
theorem calculate_rsi_first_and_constant_witness :
    (calculate_rsi [3, 7] 14).getD 0 0 = 100 ∧
    (calculate_rsi (List.replicate 2 (5 : ℚ)) 14).getD 1 0 = 100 :=
  calculate_rsi_first_and_constant [3, 7] 14 2 1 5 (by decide) (by decide)

/-- C2: the signal classifier maps every RSI value to exactly one of the
three signals — `v < 30` to Buy ("Mua"), `v > 70` to Sell ("Bán"), and
everything else, the boundaries 30 and 70 included, to Hold ("Giữ"). -/
theorem signalOf_contract (v : ℚ) :
    (signalOf v = "Mua" ∨ signalOf v = "Bán" ∨ signalOf v = "Giữ") ∧
    (signalOf v = "Mua" ↔ v < 30) ∧
    (signalOf v = "Bán" ↔ 70 < v) ∧
    (signalOf v = "Giữ" ↔ 30 ≤ v ∧ v ≤ 70) ∧
    signalOf 30 = "Giữ" ∧ signalOf 70 = "Giữ" := by
  refine ⟨?_, ?_, ?_, ?_, by norm_num [signalOf], by norm_num [signalOf]⟩ <;>
    unfold signalOf <;> split_ifs with h1 h2 <;> simp_all <;> linarith

/-- Witness for C2 at the boundary values. -/
theorem signalOf_contract_witness :
    signalOf 30 = "Giữ" ∧ signalOf 70 = "Giữ" :=
  ⟨(signalOf_contract 30).2.2.2.2.1, (signalOf_contract 70).2.2.2.2.2⟩

/-- C4 is refuted at a 2000-point series within the 7-day range: the
claim's step is `N = ceil(2000/1000) = 2`, but the code keeps every
`2000 // 1000 + 1 = 3`rd point. -/
theorem downsample_every_nth_counterexample :
    (rows2000.length + 999) / 1000 = 2 ∧
    get_historical_data_downsample 7 rows2000 ≠ everyNth 2 rows2000 := by
  have hlen : rows2000.length = 2000 := by
    rw [rows2000]
    simp only [List.length_cons, List.length_replicate]
  constructor
  · rw [hlen]
  · have h1 : get_historical_data_downsample 7 rows2000 =
        everyNth 3 rows2000 := by
      unfold get_historical_data_downsample
      rw [hlen]
      norm_num
    rw [h1]
    intro heq
    have h2 := congrArg (fun l => (l.getD 1 ⟨0, 0, 0, 0, 0⟩).time) heq
    have e3 : (everyNth 3 rows2000).getD 1 ⟨0, 0, 0, 0, 0⟩ =
        ⟨3, 1, 1, 1, 1⟩ := rfl
    have e2 : (everyNth 2 rows2000).getD 1 ⟨0, 0, 0, 0, 0⟩ =
        ⟨2, 1, 1, 1, 1⟩ := rfl
    simp only [e3, e2] at h2
    exact absurd h2 (by norm_num)

/-- C4 amended: over the 1000-point budget the code keeps every `N`-th
point with `N = length / 1000 + 1` (floor division plus one, not
`ceil(length/1000)`) when `days ≤ 7`, and aggregates by calendar day
(mean price, summed volume, mean market cap) when `days > 7`. -/
theorem downsample_policy (days : ℕ) (df : List Row)
    (h : 1000 < df.length) :
    (days ≤ 7 → get_historical_data_downsample days df =
      everyNth (df.length / 1000 + 1) df) ∧
    (7 < days → get_historical_data_downsample days df =
      (chunkByDay df).map dayAggregate) := by
  constructor
  · intro hd
    unfold get_historical_data_downsample
    rw [if_pos h, if_neg (by omega)]
  · intro hd
    unfold get_historical_data_downsample
    rw [if_pos h, if_pos hd]

/-- Witness for the amended C4 at the 2000-point series, 7-day span. -/
theorem downsample_policy_witness :
    get_historical_data_downsample 7 rows2000 =
      everyNth (rows2000.length / 1000 + 1) rows2000 :=
  (downsample_policy 7 rows2000 (by
    rw [rows2000]
    simp only [List.length_cons, List.length_replicate]
    norm_num)).1 (by norm_num)

/-- C5 is refuted: for the snapshot `coin0` (24h volume 5) over a
constant-price history, the spec's `Σ volume[i] · pct_change[i]` is 0,
but the figure the app presents as "Inflow proxy" is the raw volume 5. -/
theorem inflow_proxy_counterexample :
    inflowProxySpec [2, 2, 2] [5, 5, 5] = 0 ∧
    inflowProxyDisplayed coin0 = some 5 ∧
    inflowProxyDisplayed coin0 ≠ some (inflowProxySpec [2, 2, 2] [5, 5, 5]) := by
  have hspec : inflowProxySpec [2, 2, 2] [5, 5, 5] = 0 := by
    norm_num [inflowProxySpec, pctChange]
  refine ⟨hspec, ?_, ?_⟩
  · norm_num [inflowProxyDisplayed, coin0]
  · rw [hspec]
    norm_num [inflowProxyDisplayed, coin0]

/-- C5 amended: the "Inflow proxy" the app presents is the asset's
current 24h total volume itself (shown only when nonzero); it is not
computed from the historical samples at all. -/
theorem inflow_proxy_displays_volume (c : CoinData) (v : ℚ)
    (hc : c.volume = some v) (hv : v ≠ 0) :
    inflowProxyDisplayed c = some v := by
  simp [inflowProxyDisplayed, hc, hv]

/-- Witness for the amended C5 at `coin0`. -/
theorem inflow_proxy_displays_volume_witness :
    inflowProxyDisplayed coin0 = some 5 :=
  inflow_proxy_displays_volume coin0 5 rfl (by norm_num)

/-- C8 is refuted by the batch job: with page 1 failing (non-200) and
page 2 succeeding, `fetch_top_coins` still persists the page-2 records
and prints the closing success message — a partial result presented as
success. -/
theorem fetch_partial_success_counterexample :
    (fetch_top_coins respFail1 500).failedPages = [1] ∧
    (fetch_top_coins respFail1 500).saved = [⟨"btc", "btc", "Bitcoin"⟩] ∧
    (fetch_top_coins respFail1 500).successMessage = true := by
  decide

/-- C8 amended: the app's loaders surface fetch failures as empty
results (`None` / empty DataFrame, so `main` aborts with no partial
output), but the coin-catalog batch job only logs a failed page: it
persists the successfully fetched pages, truncated to `total`, and always
reports success. -/
theorem fetch_failure_policy :
    (∀ p : Option CoinPayload,
      (p.isNone ∨ ∃ q, p = some q ∧ q.error.isSome) →
        get_coin_data p = none) ∧
    (∀ days : ℕ, get_historical_data_model days none = []) ∧
    (∀ (responses : ℕ → Option (List MarketCoin)) (total : ℕ),
      (fetch_top_coins responses total).successMessage = true ∧
      (fetch_top_coins responses total).failedPages =
        (fetch_top_coins responses total).requestedPages.filter
          (fun p => (responses p).isNone) ∧
      (fetch_top_coins responses total).saved =
        (((fetch_top_coins responses total).requestedPages.map
          fun p => ((responses p).getD []).map toCatalog).flatten).take
            total) := by
  refine ⟨?_, fun _ => rfl, fun responses total => ⟨rfl, ?_, ?_⟩⟩
  · rintro p (hp | ⟨q, rfl, hq⟩)
    · rw [Option.isNone_iff_eq_none] at hp
      rw [hp]
      rfl
    · simp [get_coin_data, hq]
  · exact fetch_top_coins_failed_eq responses total
  · exact fetch_top_coins_saved_eq responses total

/-- Witness for the amended C8. -/
theorem fetch_failure_policy_witness :
    get_coin_data none = none ∧
    get_historical_data_model 30 none = [] ∧
    (fetch_top_coins respFail1 500).successMessage = true :=
  ⟨fetch_failure_policy.1 none (Or.inl rfl),
   fetch_failure_policy.2.1 30,
   (fetch_failure_policy.2.2 respFail1 500).1⟩

/-- C9: for every requested total, the batch job requests exactly the
pages `1, …, ceil(total/250)` (250 records per page), the persisted list
has at most `total` records, and every persisted record is the
`{id, symbol, name}` projection of a provider record. -/
theorem fetch_top_coins_pagination (responses : ℕ → Option (List MarketCoin))
    (total : ℕ) :
    (fetch_top_coins responses total).requestedPages =
      List.range' 1 ((total + 249) / 250) ∧
    (fetch_top_coins responses total).saved.length ≤ total ∧
    ∀ c ∈ (fetch_top_coins responses total).saved,
      ∃ m : MarketCoin, c = toCatalog m := by
  refine ⟨?_, ?_, ?_⟩
  · dsimp only [fetch_top_coins]
    rw [pages_eq_ceil]
  · rw [fetch_top_coins_saved_eq, List.length_take]
    exact min_le_left _ _
  · intro c hc
    rw [fetch_top_coins_saved_eq] at hc
    have hc2 := List.mem_of_mem_take hc
    rw [List.mem_flatten] at hc2
    obtain ⟨l, hl, hcl⟩ := hc2
    rw [List.mem_map] at hl
    obtain ⟨p, _, rfl⟩ := hl
    rw [List.mem_map] at hcl
    obtain ⟨m, _, rfl⟩ := hcl
    exact ⟨m, rfl⟩

/-- Witness for C9 with an all-successful provider and `total = 600`. -/
theorem fetch_top_coins_pagination_witness :
    (fetch_top_coins respAll 600).requestedPages =
      List.range' 1 ((600 + 249) / 250) ∧
    (fetch_top_coins respAll 600).saved.length ≤ 600 ∧
    ∃ m : MarketCoin, (⟨"btc", "btc", "Bitcoin"⟩ : CatalogCoin) = toCatalog m :=
  ⟨(fetch_top_coins_pagination respAll 600).1,
   (fetch_top_coins_pagination respAll 600).2.1,
   (fetch_top_coins_pagination respAll 600).2.2 ⟨"btc", "btc", "Bitcoin"⟩
     (by decide)⟩

end Samm1
